import Mathlib

/-!
Verification of the `fault.status.types` module (src/types.py): the typed
parameter store `Parameters` with its value-classification algorithm
`identify_object_typeform`, and the rendering of the `EStruct` event descriptor.

Python runtime values relevant to the store are shallowly embedded as the
inductive `PyVal`; Python exceptions become `Except String`; the Python
`dict` backing `Parameters._storage` becomes an insertion-ordered
association list with first-match lookup (Python dicts never hold duplicate
keys, and every constructor below preserves that).
-/

mutual

/-- Embedding of the Python runtime values the classifier can receive.
`pyobj` stands for an instance of a type outside the builtin table that is
not iterable (e.g. a plain `object()`); `pysubint` stands for an instance of
a strict subclass of `int` (not iterable, caught only by the `isinstance`
scan). Containers carry their elements in iteration order, as a
`PyValList` (an inlined list, mutually defined so that equality of values
remains decidable). -/
inductive PyVal where
  | pybool (b : Bool)
  | pyint (n : Int)
  | pyfloat (bits : Nat)
  | pystr (s : String)
  | pybytes (bs : List Nat)
  | pynone
  | pydict (entries : List (String × Nat))
  | pyset (elems : PyValList)
  | pylist (elems : PyValList)
  | pytuple (elems : PyValList)
  | pyobj (id : Nat)
  | pysubint (n : Int)
deriving Repr, DecidableEq

/-- The contents of a Python container, in iteration order. -/
inductive PyValList where
  | nil
  | cons (head : PyVal) (tail : PyValList)
deriving Repr, DecidableEq

end

/-- View of container contents as a Lean list (used only to state
properties about elements). -/
def PyValList.toList : PyValList → List PyVal
  | .nil => []
  | .cons x t => x :: t.toList

/-- The `_python_builtins` table: `type(obj) in Class._python_builtins`
(exact-type fast path of `identify_object_typeform`). -/
def PyVal.builtinName : PyVal → Option String
  | .pybool _  => some "boolean"
  | .pyint _   => some "integer"
  | .pyfloat _ => some "rational"
  | .pystr _   => some "string"
  | .pybytes _ => some "octets"
  | .pynone    => some "void"
  | .pydict _  => some "parameters"
  | _          => none

/-- Model of `iter(obj)` / `next(i)`: `none` means `iter` raised (not iterable),
`some none` means `next` raised `StopIteration` (empty), `some (some x)`
means the first element is `x`. Builtin scalar types are intercepted by the
fast path before iteration is ever attempted, so only the container
constructors and the two fall-through constructors are consulted here. -/
def PyVal.iterFirst : PyVal → Option (Option PyVal)
  | .pyset .nil          => some none
  | .pyset (.cons x _)   => some (some x)
  | .pylist .nil         => some none
  | .pylist (.cons x _)  => some (some x)
  | .pytuple .nil        => some none
  | .pytuple (.cons x _) => some (some x)
  | _                    => none

/-- Test `isinstance(obj, set)` for the container branch. -/
def PyVal.isPySet : PyVal → Bool
  | .pyset _ => true
  | _        => false

/-- The final `isinstance` scan over `_python_builtins` in insertion order
(bool, int, float, str, bytes, NoneType, dict), covering subclass cases.
Returns the type-name of the first matching entry, as in the `for` loop.
An exact builtin instance also matches (isinstance accepts the type
itself); `pysubint` matches `int`; `pyobj` matches nothing, so the loop
completes and the Python function implicitly returns `None`. -/
def PyVal.subclassScan : PyVal → Option String
  | .pybool _   => some "boolean"
  | .pyint _    => some "integer"
  | .pyfloat _  => some "rational"
  | .pystr _    => some "string"
  | .pybytes _  => some "octets"
  | .pynone     => some "void"
  | .pydict _   => some "parameters"
  | .pysubint _ => some "integer"
  | _           => none

theorem PyVal.iterFirst_sizeOf {v x : PyVal} (h : v.iterFirst = some (some x)) :
    sizeOf x < sizeOf v := by
  cases v with
  | pyset elems => cases elems with
    | nil => simp [PyVal.iterFirst] at h
    | cons y ys => simp [PyVal.iterFirst] at h; subst h; simp; omega
  | pylist elems => cases elems with
    | nil => simp [PyVal.iterFirst] at h
    | cons y ys => simp [PyVal.iterFirst] at h; subst h; simp; omega
  | pytuple elems => cases elems with
    | nil => simp [PyVal.iterFirst] at h
    | cons y ys => simp [PyVal.iterFirst] at h; subst h; simp; omega
  | pybool b => simp [PyVal.iterFirst] at h
  | pyint n => simp [PyVal.iterFirst] at h
  | pyfloat b => simp [PyVal.iterFirst] at h
  | pystr s => simp [PyVal.iterFirst] at h
  | pybytes b => simp [PyVal.iterFirst] at h
  | pynone => simp [PyVal.iterFirst] at h
  | pydict e => simp [PyVal.iterFirst] at h
  | pyobj i => simp [PyVal.iterFirst] at h
  | pysubint n => simp [PyVal.iterFirst] at h

/-- The `ValueError` message raised on an empty iterator. -/
def emptyIteratorError : String :=
  "ValueError: empty iterator cannot be used to identify parameter type"

/-- Embedding of `Parameters.identify_object_typeform`.  Result is
`.ok (some (form, type-name))` for a normal classification,
`.ok none` when the Python function falls off the end and returns `None`
(no raise), and `.error msg` when an exception propagates out
(`ValueError` on an empty iterator, `TypeError` when the recursive result
is `None` and `tf[0]` is evaluated, `AssertionError` when the
form of the first element is not `value`/`representation`). -/
def identify_object_typeform (obj : PyVal) : Except String (Option (String × String)) :=
  match obj.builtinName with
  | some t => .ok (some ("value", t))
  | none =>
    match h : obj.iterFirst with
    | some none => .error emptyIteratorError
    | some (some first) =>
      match identify_object_typeform first with
      | .error e => .error e
      | .ok none => .error "TypeError: NoneType object is not subscriptable"
      | .ok (some tf) =>
        if tf.1 = "value" ∨ tf.1 = "representation" then
          if obj.isPySet then .ok (some ("v-set", tf.2))
          else .ok (some ("v-sequence", tf.2))
        else .error "AssertionError"
    | none =>
      match obj.subclassScan with
      | some stype => .ok (some ("value", stype))
      | none => .ok none
termination_by sizeOf obj
decreasing_by exact PyVal.iterFirst_sizeOf h

example : identify_object_typeform (.pyint 3) = .ok (some ("value", "integer")) := by
  simp [identify_object_typeform, PyVal.builtinName]

example : identify_object_typeform (.pylist (.cons (.pyint 3) .nil)) =
    .ok (some ("v-sequence", "integer")) := by
  simp [identify_object_typeform, PyVal.builtinName, PyVal.iterFirst, PyVal.isPySet]

example : identify_object_typeform (.pylist .nil) = .error emptyIteratorError := by
  simp [identify_object_typeform, PyVal.builtinName, PyVal.iterFirst]

example : identify_object_typeform (.pyobj 0) = .ok none := by
  simp [identify_object_typeform, PyVal.builtinName, PyVal.iterFirst, PyVal.subclassScan]

example : identify_object_typeform
      (.pyset (.cons (.pylist (.cons (.pystr "a") .nil)) .nil)) =
    .error "AssertionError" := by
  simp [identify_object_typeform, PyVal.builtinName, PyVal.iterFirst, PyVal.isPySet]

/-- A stored entry: the descriptor tag paired with the value.  The tag is
`none` exactly when `identify_object_typeform` returned Python `None`. -/
abbrev TaggedValue : Type := Option (String × String) × PyVal

/-- Model of `Parameters._storage`: a Python `dict` from keys to tagged values,
modelled as an insertion-ordered association list without duplicate keys. -/
abbrev Storage : Type := List (String × TaggedValue)

/-- Lookup `storage[key]` / `storage.get(key)`: first-match lookup. -/
def dictGet? (s : Storage) (k : String) : Option TaggedValue :=
  (s.find? (fun p => p.1 = k)).map (fun p => p.2)

/-- Membership test `key in storage`. -/
def dictMem (s : Storage) (k : String) : Bool :=
  s.any (fun p => p.1 = k)

/-- Assignment `storage[key] = v`: update in place when the key is present (Python
dicts keep the original position), append otherwise. -/
def dictInsert (s : Storage) (k : String) (v : TaggedValue) : Storage :=
  if dictMem s k then s.map (fun p => if p.1 = k then (k, v) else p)
  else s ++ [(k, v)]

/-- Mutation part of `storage.pop(key, None)`: remove the entry. -/
def dictErase (s : Storage) (k : String) : Storage :=
  s.filter (fun p => p.1 ≠ k)

/-- Python `dict.__eq__`: order-insensitive map equality.  Both key lists
are scanned; for duplicate-free storages this is exactly pointwise lookup
equality. -/
def dictBeq (a b : Storage) : Bool :=
  (a.map Prod.fst ++ b.map Prod.fst).all
    (fun k => decide (dictGet? a k = dictGet? b k))

/-- The `Parameters` object: a wrapper around its `_storage` dict. -/
structure Parameters where
  _storage : Storage

/-- Method `Parameters.__eq__`: delegates to dict equality of the storages. -/
def Parameters.beq (p operand : Parameters) : Bool :=
  dictBeq operand._storage p._storage

/-- Method `Parameters.get_parameter`: `self._storage[key][-1]`; a missing key
raises `KeyError`. -/
def Parameters.get_parameter (p : Parameters) (key : String) : Except String PyVal :=
  match dictGet? p._storage key with
  | some tv => .ok tv.2
  | none => .error "KeyError"

/-- Method `Parameters.__getitem__`: calls `get_parameter` but does not return its
result, so a present key evaluates to Python `None` while a missing key
still propagates the `KeyError`. -/
def Parameters.getitem (p : Parameters) (key : String) : Except String PyVal :=
  match p.get_parameter key with
  | .ok _ => .ok .pynone
  | .error e => .error e

/-- Method `Parameters.set_parameter`: classify, `pop` the previous entry, store
`(tf, value)`, return the previous tagged value (or Python `None`).
The returned `Parameters` is the post-call state; when classification
raises, the state is the untouched receiver. -/
def Parameters.set_parameter (p : Parameters) (key : String) (value : PyVal) :
    Except String (Option TaggedValue) × Parameters :=
  match identify_object_typeform value with
  | .error e => (.error e, p)
  | .ok tf =>
    let last := dictGet? p._storage key
    (.ok last, ⟨dictInsert (dictErase p._storage key) key (tf, value)⟩)

/-- Method `Parameters.update`: classify and store each pair in order; a
classification failure raises, keeping the entries stored so far. -/
def Parameters.update (p : Parameters) (pairiter : List (String × PyVal)) :
    Except String Unit × Parameters :=
  match pairiter with
  | [] => (.ok (), p)
  | (k, v) :: rest =>
    match identify_object_typeform v with
    | .error e => (.error e, p)
    | .ok tf => Parameters.update ⟨dictInsert p._storage k (tf, v)⟩ rest

/-- Method `Parameters.set_reference`: read the stored tag of `target`, take
its type-name (subscripts `[0][1]`), store the pair of tag (reference, t)
and the target key string under `key`, and return `t`.  A missing `target`
raises `KeyError`; a `None` tag on the target raises `TypeError` when
subscripted. -/
def Parameters.set_reference (p : Parameters) (key target : String) :
    Except String String × Parameters :=
  match dictGet? p._storage target with
  | none => (.error "KeyError", p)
  | some (none, _) => (.error "TypeError: NoneType object is not subscriptable", p)
  | some (some tf, _) =>
    (.ok tf.2, ⟨dictInsert p._storage key (some ("reference", tf.2), .pystr target)⟩)

/-- The comprehension loop of `from_pairs_v1`, building the storage dict
entry by entry. -/
def from_pairs_loop (acc : Storage) : List (String × PyVal) → Except String Storage
  | [] => .ok acc
  | (k, v) :: rest =>
    match identify_object_typeform v with
    | .error e => .error e
    | .ok tf => from_pairs_loop (dictInsert acc k (tf, v)) rest

/-- Constructor `Parameters.from_pairs_v1`: the dict comprehension
`{k: (tf(v), v) for k, v in iterpairs}`; classification runs per pair in
order and any failure propagates out of the constructor. -/
def Parameters.from_pairs_v1 (iterpairs : List (String × PyVal)) :
    Except String Parameters :=
  (from_pairs_loop [] iterpairs).map (fun s => ⟨s⟩)

example :
    (Parameters.from_pairs_v1 [("count", .pyint 3), ("name", .pystr "widget")]).map
      (fun p => p._storage) =
    .ok [("count", (some ("value", "integer"), .pyint 3)),
         ("name", (some ("value", "string"), .pystr "widget"))] := by
  simp [Parameters.from_pairs_v1, from_pairs_loop,
    identify_object_typeform, PyVal.builtinName, dictInsert, dictMem, Except.map]


/-! ### Lemmas about the dict model -/

theorem dictGet?_cons (p : String × TaggedValue) (t : Storage) (q : String) :
    dictGet? (p :: t) q = if p.1 = q then some p.2 else dictGet? t q := by
  by_cases h : p.1 = q <;> simp [dictGet?, List.find?_cons, h]

theorem dictMem_iff {s : Storage} {k : String} :
    dictMem s k = true ↔ k ∈ s.map Prod.fst := by
  simp [dictMem, List.any_eq_true, List.mem_map]

theorem dictGet?_eq_none_of_not_mem {s : Storage} {k : String}
    (h : k ∉ s.map Prod.fst) : dictGet? s k = none := by
  induction s with
  | nil => rfl
  | cons p t ih =>
    simp only [List.map_cons, List.mem_cons] at h
    push_neg at h
    rw [dictGet?_cons, if_neg (fun he => h.1 he.symm), ih h.2]

theorem mem_of_dictGet?_eq_some {s : Storage} {k : String} {v : TaggedValue}
    (h : dictGet? s k = some v) : k ∈ s.map Prod.fst := by
  by_contra hk
  rw [dictGet?_eq_none_of_not_mem hk] at h
  exact Option.noConfusion h

theorem dictGet?_mapReplace_self (s : Storage) (k : String) (v : TaggedValue) :
    dictGet? (s.map (fun p => if p.1 = k then (k, v) else p)) k
      = if dictMem s k then some v else none := by
  induction s with
  | nil => simp [dictGet?, dictMem]
  | cons p t ih =>
    by_cases hp : p.1 = k
    · simp only [List.map_cons, if_pos hp]
      rw [dictGet?_cons]
      simp [dictMem, hp]
    · simp only [List.map_cons, if_neg hp]
      rw [dictGet?_cons, if_neg hp, ih]
      have : dictMem (p :: t) k = dictMem t k := by
        simp [dictMem, List.any_cons, hp]
      rw [this]

theorem dictGet?_mapReplace_ne (s : Storage) (k q : String) (v : TaggedValue)
    (h : q ≠ k) :
    dictGet? (s.map (fun p => if p.1 = k then (k, v) else p)) q = dictGet? s q := by
  induction s with
  | nil => simp
  | cons p t ih =>
    by_cases hp : p.1 = k
    · simp only [List.map_cons, if_pos hp]
      rw [dictGet?_cons, dictGet?_cons, if_neg (fun he => h he.symm),
        if_neg (fun he => h (hp ▸ he).symm), ih]
    · simp only [List.map_cons, if_neg hp]
      rw [dictGet?_cons, dictGet?_cons, ih]

theorem dictGet?_append_single (s : Storage) (k q : String) (v : TaggedValue) :
    dictGet? (s ++ [(k, v)]) q
      = if dictGet? s q = none then (if k = q then some v else none)
        else dictGet? s q := by
  induction s with
  | nil => simp [dictGet?_cons, dictGet?]
  | cons p t ih =>
    rw [List.cons_append, dictGet?_cons, dictGet?_cons]
    by_cases hp : p.1 = q
    · simp [hp]
    · simp only [if_neg hp]
      exact ih

theorem dictGet?_insert_self (s : Storage) (k : String) (v : TaggedValue) :
    dictGet? (dictInsert s k v) k = some v := by
  unfold dictInsert
  by_cases hm : dictMem s k
  · rw [if_pos hm, dictGet?_mapReplace_self, if_pos hm]
  · rw [if_neg hm, dictGet?_append_single]
    have hk : k ∉ s.map Prod.fst := fun hmem => hm (dictMem_iff.mpr hmem)
    rw [dictGet?_eq_none_of_not_mem hk]
    simp

theorem dictGet?_insert_ne (s : Storage) (k q : String) (v : TaggedValue)
    (h : q ≠ k) : dictGet? (dictInsert s k v) q = dictGet? s q := by
  unfold dictInsert
  by_cases hm : dictMem s k
  · rw [if_pos hm, dictGet?_mapReplace_ne s k q v h]
  · rw [if_neg hm, dictGet?_append_single]
    by_cases hq : dictGet? s q = none
    · rw [if_pos hq, if_neg (fun he => h he.symm), hq]
    · rw [if_neg hq]

theorem dictGet?_erase_self (s : Storage) (k : String) :
    dictGet? (dictErase s k) k = none := by
  apply dictGet?_eq_none_of_not_mem
  intro hmem
  rcases List.mem_map.mp hmem with ⟨p, hp, he⟩
  unfold dictErase at hp
  rcases List.mem_filter.mp hp with ⟨_, hne⟩
  simp at hne
  exact hne he

theorem dictGet?_erase_ne (s : Storage) (k q : String) (h : q ≠ k) :
    dictGet? (dictErase s k) q = dictGet? s q := by
  induction s with
  | nil => rfl
  | cons p t ih =>
    unfold dictErase
    by_cases hp : p.1 = k
    · rw [List.filter_cons_of_neg (by simp [hp])]
      rw [dictGet?_cons, if_neg (fun he => h (hp ▸ he).symm)]
      exact ih
    · rw [List.filter_cons_of_pos (by simp [hp])]
      rw [dictGet?_cons, dictGet?_cons]
      unfold dictErase at ih
      rw [ih]

theorem dictMem_erase_self (s : Storage) (k : String) :
    dictMem (dictErase s k) k = false := by
  by_cases hm : dictMem (dictErase s k) k
  · rcases List.mem_map.mp (dictMem_iff.mp hm) with ⟨p, hp, he⟩
    rcases List.mem_filter.mp hp with ⟨_, hne⟩
    simp at hne
    exact absurd he hne
  · simpa using hm

theorem filterKey_erase (s : Storage) (k : String) :
    (dictErase s k).filter (fun q => q.1 = k) = [] := by
  rw [List.filter_eq_nil_iff]
  intro p hp
  rcases List.mem_filter.mp hp with ⟨_, hne⟩
  simp at hne ⊢
  exact hne

theorem filterKey_insert_after_erase (s : Storage) (k : String) (v : TaggedValue) :
    (dictInsert (dictErase s k) k v).filter (fun q => q.1 = k) = [(k, v)] := by
  unfold dictInsert
  rw [if_neg (by rw [dictMem_erase_self]; exact fun h => Bool.noConfusion h)]
  rw [List.filter_append, filterKey_erase]
  simp

/-! ### Lemmas about `from_pairs_loop` and dict equality -/

theorem from_pairs_loop_frame (pairs : List (String × PyVal)) (acc s : Storage)
    (k : String)
    (hok : from_pairs_loop acc pairs = .ok s)
    (hk : k ∉ pairs.map Prod.fst) :
    dictGet? s k = dictGet? acc k := by
  induction pairs generalizing acc with
  | nil =>
    unfold from_pairs_loop at hok
    cases hok
    rfl
  | cons hd tl ih =>
    obtain ⟨k0, v0⟩ := hd
    unfold from_pairs_loop at hok
    simp only [List.map_cons, List.mem_cons] at hk
    push_neg at hk
    cases hid : identify_object_typeform v0 with
    | error e => rw [hid] at hok; exact Except.noConfusion hok
    | ok tf0 =>
      rw [hid] at hok
      rw [ih _ hok hk.2, dictGet?_insert_ne _ _ _ _ hk.1]

theorem from_pairs_loop_mem (pairs : List (String × PyVal)) (acc s : Storage)
    (k : String) (v : PyVal)
    (hok : from_pairs_loop acc pairs = .ok s)
    (hnd : (pairs.map Prod.fst).Nodup)
    (hmem : (k, v) ∈ pairs) :
    ∃ tf, identify_object_typeform v = .ok tf ∧ dictGet? s k = some (tf, v) := by
  induction pairs generalizing acc with
  | nil => exact absurd hmem (List.not_mem_nil _)
  | cons hd tl ih =>
    obtain ⟨k0, v0⟩ := hd
    unfold from_pairs_loop at hok
    simp only [List.map_cons, List.nodup_cons] at hnd
    cases hid : identify_object_typeform v0 with
    | error e => rw [hid] at hok; exact Except.noConfusion hok
    | ok tf0 =>
      rw [hid] at hok
      rcases List.mem_cons.mp hmem with heq | htl
      · cases heq
        refine ⟨tf0, hid, ?_⟩
        rw [from_pairs_loop_frame tl _ s k hok hnd.1, dictGet?_insert_self]
      · exact ih _ hok hnd.2 htl

theorem dictBeq_iff (a b : Storage) :
    dictBeq a b = true ↔ ∀ k, dictGet? a k = dictGet? b k := by
  unfold dictBeq
  rw [List.all_eq_true]
  constructor
  · intro h k
    by_cases ha : k ∈ a.map Prod.fst
    · exact of_decide_eq_true (h k (List.mem_append.mpr (Or.inl ha)))
    · by_cases hb : k ∈ b.map Prod.fst
      · exact of_decide_eq_true (h k (List.mem_append.mpr (Or.inr hb)))
      · rw [dictGet?_eq_none_of_not_mem ha, dictGet?_eq_none_of_not_mem hb]
  · intro h x _
    exact decide_eq_true (h x)

/-! ### The `EStruct` event descriptor -/

/-- Embedding of `EStruct`: the five-field tuple subclass, with fields named after its
property accessors (`self[0]` = protocol, `self[1]` = identifier,
`self[2]` = code, `self[3]` = symbol, `self[4]` = abstract). -/
structure EStruct where
  protocol : String
  identifier : String
  code : Int
  symbol : String
  abstract : String
deriving DecidableEq

/-- The single-quote character, written by code point to keep it out of
string literals. -/
def squote : String := String.singleton (Char.ofNat 39)

/-- Python `repr` of a simple string (`%r` in the format): the text wrapped
in single quotes.  (CPython escapes quotes and control characters inside;
the strings in this development contain none.) -/
def pyReprStr (s : String) : String := squote ++ s ++ squote

/-- Method `EStruct.__repr__`: include the `:code` segment exactly when
`str(self.code) != self.identifier`; otherwise format only protocol,
identifier, symbol and the `repr` of the abstract. -/
def EStruct.repr (e : EStruct) : String :=
  if toString e.code ≠ e.identifier then
    "<[" ++ e.protocol ++ "#" ++ e.identifier ++ ":" ++ toString e.code ++ "] "
      ++ e.symbol ++ ": " ++ pyReprStr e.abstract ++ ">"
  else
    "<[" ++ e.protocol ++ "#" ++ e.identifier ++ "] "
      ++ e.symbol ++ ": " ++ pyReprStr e.abstract ++ ">"

/-! ### Helper lemmas for the claim theorems -/

theorem identify_of_builtinName {x : PyVal} {T : String}
    (h : x.builtinName = some T) :
    identify_object_typeform x = .ok (some ("value", T)) := by
  rw [identify_object_typeform, h]

theorem from_pairs_v1_storage (pairs : List (String × PyVal)) (p : Parameters)
    (h : Parameters.from_pairs_v1 pairs = .ok p) :
    from_pairs_loop [] pairs = .ok p._storage := by
  unfold Parameters.from_pairs_v1 at h
  cases hs : from_pairs_loop [] pairs with
  | error e => rw [hs] at h; exact Except.noConfusion h
  | ok s =>
    rw [hs] at h
    simp only [Except.map] at h
    cases h
    rfl

/-! ### Claim theorems -/

/-- C1 (code behavior at the failing input): a value of a type outside the
builtin table, not iterable, and not a subclass of a builtin (`pyobj`, a
plain `object()` instance) is classified to Python `None` with no
exception, and `set_parameter` then silently stores it under the absent
descriptor tag instead of failing loudly. -/
theorem set_parameter_unclassifiable_silently_stored
    (p : Parameters) (k : String) (i : Nat) :
    identify_object_typeform (.pyobj i) = .ok none
    ∧ (p.set_parameter k (.pyobj i)).1 = .ok (dictGet? p._storage k)
    ∧ dictGet? (p.set_parameter k (.pyobj i)).2._storage k
        = some (none, .pyobj i) := by
  have hid : identify_object_typeform (.pyobj i) = .ok none := by
    simp [identify_object_typeform, PyVal.builtinName, PyVal.iterFirst,
      PyVal.subclassScan]
  refine ⟨hid, ?_, ?_⟩
  · simp [Parameters.set_parameter, hid]
  · simp [Parameters.set_parameter, hid, dictGet?_insert_self]

/-- C9: the subscript read `p[k]` (`__getitem__`) performs the lookup but
does not return its result, so for every present key it evaluates to
Python `None`; only `get_parameter` returns the stored value. -/
theorem getitem_discards_stored_value (p : Parameters) (k : String)
    (tv : TaggedValue) (h : dictGet? p._storage k = some tv) :
    p.getitem k = .ok .pynone ∧ p.get_parameter k = .ok tv.2 := by
  simp [Parameters.getitem, Parameters.get_parameter, h]

theorem getitem_discards_stored_value_witness :
    (⟨[("k", (some ("value", "integer"), .pyint 7))]⟩ : Parameters).getitem "k"
        = .ok .pynone
    ∧ (⟨[("k", (some ("value", "integer"), .pyint 7))]⟩ : Parameters).get_parameter "k"
        = .ok (.pyint 7) :=
  getitem_discards_stored_value _ "k" (some ("value", "integer"), .pyint 7)
    (by simp [dictGet?])

/-- C10: `set_parameter` is atomic on classification failure: when
`identify_object_typeform` raises, the call returns that error with the
store state exactly as before the call, so every key (including `k`
itself) maps as it did before. -/
theorem set_parameter_atomic_on_classification_failure
    (p : Parameters) (k : String) (v : PyVal) (e : String)
    (h : identify_object_typeform v = .error e) :
    p.set_parameter k v = (.error e, p)
    ∧ ∀ q, dictGet? (p.set_parameter k v).2._storage q = dictGet? p._storage q := by
  have hs : p.set_parameter k v = (.error e, p) := by
    simp [Parameters.set_parameter, h]
  exact ⟨hs, fun q => by rw [hs]⟩

theorem set_parameter_atomic_on_classification_failure_witness :
    (⟨[("k", (some ("value", "integer"), .pyint 1))]⟩ : Parameters).set_parameter
        "k" (.pylist .nil)
      = (.error emptyIteratorError,
         ⟨[("k", (some ("value", "integer"), .pyint 1))]⟩) :=
  (set_parameter_atomic_on_classification_failure _ "k" (.pylist .nil)
    emptyIteratorError
    (by simp [identify_object_typeform, PyVal.builtinName, PyVal.iterFirst])).1

/-- C5: classifying an empty iterable of unknown element type (empty list,
tuple or set) raises the empty-iterator `ValueError`, and every
store-mutating call relying on classification (`set_parameter`, `update`)
fails immediately with that error, leaving the store unchanged rather than
deferring the failure to export time. -/
theorem empty_collection_fails_at_set_and_update (p : Parameters) (k : String) :
    (identify_object_typeform (.pylist .nil) = .error emptyIteratorError
      ∧ (p.set_parameter k (.pylist .nil)).1 = .error emptyIteratorError
      ∧ (p.set_parameter k (.pylist .nil)).2 = p
      ∧ (p.update [(k, .pylist .nil)]).1 = .error emptyIteratorError
      ∧ (p.update [(k, .pylist .nil)]).2 = p)
    ∧ (identify_object_typeform (.pytuple .nil) = .error emptyIteratorError
      ∧ (p.set_parameter k (.pytuple .nil)).1 = .error emptyIteratorError
      ∧ (p.set_parameter k (.pytuple .nil)).2 = p
      ∧ (p.update [(k, .pytuple .nil)]).1 = .error emptyIteratorError
      ∧ (p.update [(k, .pytuple .nil)]).2 = p)
    ∧ (identify_object_typeform (.pyset .nil) = .error emptyIteratorError
      ∧ (p.set_parameter k (.pyset .nil)).1 = .error emptyIteratorError
      ∧ (p.set_parameter k (.pyset .nil)).2 = p
      ∧ (p.update [(k, .pyset .nil)]).1 = .error emptyIteratorError
      ∧ (p.update [(k, .pyset .nil)]).2 = p) := by
  have hl : identify_object_typeform (.pylist .nil) = .error emptyIteratorError := by
    simp [identify_object_typeform, PyVal.builtinName, PyVal.iterFirst]
  have ht : identify_object_typeform (.pytuple .nil) = .error emptyIteratorError := by
    simp [identify_object_typeform, PyVal.builtinName, PyVal.iterFirst]
  have hst : identify_object_typeform (.pyset .nil) = .error emptyIteratorError := by
    simp [identify_object_typeform, PyVal.builtinName, PyVal.iterFirst]
  refine ⟨⟨hl, ?_, ?_, ?_, ?_⟩, ⟨ht, ?_, ?_, ?_, ?_⟩, ⟨hst, ?_, ?_, ?_, ?_⟩⟩ <;>
    simp [Parameters.set_parameter, Parameters.update, hl, ht, hst]

/-- C3: `set(key, v1)` then `set(key, v2)` leaves exactly one entry for the
key, tagged with the classification of `v2` and holding `v2`; the second call
returns the prior `(tag, value)` pair holding `v1`, and a set on a
previously absent key returns Python `None`. -/
theorem set_twice_replaces_and_returns_prior (p : Parameters) (k : String)
    (v1 v2 : PyVal) (t1 t2 : Option (String × String))
    (h1 : identify_object_typeform v1 = .ok t1)
    (h2 : identify_object_typeform v2 = .ok t2) :
    (p.set_parameter k v1).1 = .ok (dictGet? p._storage k)
    ∧ (dictGet? p._storage k = none → (p.set_parameter k v1).1 = .ok none)
    ∧ ((p.set_parameter k v1).2.set_parameter k v2).1 = .ok (some (t1, v1))
    ∧ dictGet? ((p.set_parameter k v1).2.set_parameter k v2).2._storage k
        = some (t2, v2)
    ∧ (((p.set_parameter k v1).2.set_parameter k v2).2._storage.filter
          (fun q => q.1 = k)).length = 1 := by
  have e1 : p.set_parameter k v1
      = (.ok (dictGet? p._storage k),
         ⟨dictInsert (dictErase p._storage k) k (t1, v1)⟩) := by
    simp [Parameters.set_parameter, h1]
  have e2 : (Parameters.mk (dictInsert (dictErase p._storage k) k (t1, v1))).set_parameter
        k v2
      = (.ok (some (t1, v1)),
         ⟨dictInsert
            (dictErase (dictInsert (dictErase p._storage k) k (t1, v1)) k)
            k (t2, v2)⟩) := by
    simp [Parameters.set_parameter, h2, dictGet?_insert_self]
  refine ⟨by simp only [e1], fun hn => by simp only [e1, hn], ?_, ?_, ?_⟩
  · simp only [e1, e2]
  · simp only [e1, e2]
    exact dictGet?_insert_self _ _ _
  · simp only [e1, e2, filterKey_insert_after_erase]
    rfl

theorem set_twice_replaces_and_returns_prior_witness :
    ((⟨[]⟩ : Parameters).set_parameter "k" (.pyint 1)).1 = .ok (dictGet? [] "k")
    ∧ (dictGet? ([] : Storage) "k" = none →
        ((⟨[]⟩ : Parameters).set_parameter "k" (.pyint 1)).1 = .ok none)
    ∧ (((⟨[]⟩ : Parameters).set_parameter "k" (.pyint 1)).2.set_parameter "k"
          (.pystr "x")).1 = .ok (some (some ("value", "integer"), .pyint 1))
    ∧ dictGet? (((⟨[]⟩ : Parameters).set_parameter "k" (.pyint 1)).2.set_parameter "k"
          (.pystr "x")).2._storage "k" = some (some ("value", "string"), .pystr "x")
    ∧ ((((⟨[]⟩ : Parameters).set_parameter "k" (.pyint 1)).2.set_parameter "k"
          (.pystr "x")).2._storage.filter (fun q => q.1 = "k")).length = 1 :=
  set_twice_replaces_and_returns_prior ⟨[]⟩ "k" (.pyint 1) (.pystr "x")
    (some ("value", "integer")) (some ("value", "string"))
    (by simp [identify_object_typeform, PyVal.builtinName])
    (by simp [identify_object_typeform, PyVal.builtinName])

/-- C6: with `target` present and carrying type-name `t`,
`set_reference(key, target)` returns `t` and stores `key` as
the tag (reference, t) with the target key string as stored value; it
raises `KeyError` when the target is absent; and a later `set` on `target`
leaves the stored reference tag of `key` unchanged. -/
theorem set_reference_resolves_and_tag_is_fixed (p : Parameters)
    (key target : String) (f t : String) (w : PyVal)
    (h : dictGet? p._storage target = some (some (f, t), w)) :
    (p.set_reference key target).1 = .ok t
    ∧ dictGet? (p.set_reference key target).2._storage key
        = some (some ("reference", t), .pystr target)
    ∧ (∀ q : Parameters, dictGet? q._storage target = none →
        q.set_reference key target = (.error "KeyError", q))
    ∧ (∀ (v2 : PyVal) (t2 : Option (String × String)), key ≠ target →
        identify_object_typeform v2 = .ok t2 →
        dictGet? ((p.set_reference key target).2.set_parameter target v2).2._storage key
          = some (some ("reference", t), .pystr target)) := by
  have e1 : p.set_reference key target
      = (.ok t, ⟨dictInsert p._storage key (some ("reference", t), .pystr target)⟩) := by
    simp [Parameters.set_reference, h]
  have g1 : dictGet? (p.set_reference key target).2._storage key
      = some (some ("reference", t), .pystr target) := by
    rw [e1]
    exact dictGet?_insert_self _ _ _
  refine ⟨by rw [e1], g1, ?_, ?_⟩
  · intro q hq
    simp [Parameters.set_reference, hq]
  · intro v2 t2 hne hid
    have e2 : (p.set_reference key target).2.set_parameter target v2
        = (.ok (dictGet? (p.set_reference key target).2._storage target),
           ⟨dictInsert (dictErase (p.set_reference key target).2._storage target)
              target (t2, v2)⟩) := by
      simp [Parameters.set_parameter, hid]
    rw [e2]
    show dictGet? (dictInsert _ target (t2, v2)) key = _
    rw [dictGet?_insert_ne _ _ _ _ hne, dictGet?_erase_ne _ _ _ hne, g1]

theorem set_reference_resolves_and_tag_is_fixed_witness :
    ((⟨[("tgt", (some ("value", "integer"), .pyint 9))]⟩ : Parameters).set_reference
        "ref" "tgt").1 = .ok "integer"
    ∧ dictGet? ((⟨[("tgt", (some ("value", "integer"), .pyint 9))]⟩ :
          Parameters).set_reference "ref" "tgt").2._storage "ref"
        = some (some ("reference", "integer"), .pystr "tgt")
    ∧ (∀ q : Parameters, dictGet? q._storage "tgt" = none →
        q.set_reference "ref" "tgt" = (.error "KeyError", q))
    ∧ (∀ (v2 : PyVal) (t2 : Option (String × String)), "ref" ≠ "tgt" →
        identify_object_typeform v2 = .ok t2 →
        dictGet? (((⟨[("tgt", (some ("value", "integer"), .pyint 9))]⟩ :
              Parameters).set_reference "ref" "tgt").2.set_parameter "tgt"
              v2).2._storage "ref"
          = some (some ("reference", "integer"), .pystr "tgt")) :=
  set_reference_resolves_and_tag_is_fixed _ "ref" "tgt" "value" "integer"
    (.pyint 9) (by simp [dictGet?])

/-- C8: `EStruct.__repr__` includes the `:code` segment exactly when the
decimal string of `code` differs from `identifier`, and omits it
otherwise; the POSIX `EINTR` descriptor in particular renders without the
numeric segment. -/
theorem estruct_repr_code_segment (e : EStruct) :
    (toString e.code = e.identifier →
      e.repr = "<[" ++ e.protocol ++ "#" ++ e.identifier ++ "] "
        ++ e.symbol ++ ": " ++ pyReprStr e.abstract ++ ">")
    ∧ (toString e.code ≠ e.identifier →
      e.repr = "<[" ++ e.protocol ++ "#" ++ e.identifier ++ ":" ++ toString e.code
        ++ "] " ++ e.symbol ++ ": " ++ pyReprStr e.abstract ++ ">")
    ∧ (EStruct.mk "posix.errno" "4" 4 "EINTR" "Interrupted system call").repr
        = "<[posix.errno#4] EINTR: " ++ squote ++ "Interrupted system call"
          ++ squote ++ ">" := by
  refine ⟨fun h => ?_, fun h => ?_, ?_⟩
  · simp [EStruct.repr, h]
  · simp [EStruct.repr, h]
  · have h4 : toString (4 : Int) = "4" := by decide
    simp only [EStruct.repr, h4, pyReprStr]
    decide

theorem estruct_repr_code_segment_witness :
    toString ((EStruct.mk "posix.errno" "4" 4 "EINTR"
        "Interrupted system call").code)
      = (EStruct.mk "posix.errno" "4" 4 "EINTR" "Interrupted system call").identifier
    ∧ (EStruct.mk "posix.errno" "4" 4 "EINTR" "Interrupted system call").repr
        = "<[posix.errno#4] EINTR: " ++ squote ++ "Interrupted system call"
          ++ squote ++ ">" := by
  have h4 : toString (4 : Int) = "4" := by decide
  exact ⟨h4, (estruct_repr_code_segment
    (EStruct.mk "posix.errno" "4" 4 "EINTR" "Interrupted system call")).1 h4⟩

/-- C2: round-trip fidelity: building a store with `from_pairs_v1` from
pairs with distinct keys and then reading each key back with
`get_parameter` returns the original value unchanged. -/
theorem from_pairs_get_roundtrip (pairs : List (String × PyVal)) (p : Parameters)
    (hnd : (pairs.map Prod.fst).Nodup)
    (hok : Parameters.from_pairs_v1 pairs = .ok p) :
    ∀ kv ∈ pairs, p.get_parameter kv.1 = .ok kv.2 := by
  intro kv hmem
  obtain ⟨k, v⟩ := kv
  have hs := from_pairs_v1_storage pairs p hok
  obtain ⟨tf, _, hget⟩ := from_pairs_loop_mem pairs [] p._storage k v hs hnd hmem
  simp [Parameters.get_parameter, hget]

theorem from_pairs_get_roundtrip_witness :
    (⟨[("count", (some ("value", "integer"), .pyint 3)),
       ("name", (some ("value", "string"), .pystr "widget")),
       ("tags", (some ("v-set", "string"),
          .pyset (.cons (.pystr "a") .nil)))]⟩ : Parameters).get_parameter "count"
      = .ok (.pyint 3)
    ∧ (⟨[("count", (some ("value", "integer"), .pyint 3)),
         ("name", (some ("value", "string"), .pystr "widget")),
         ("tags", (some ("v-set", "string"),
            .pyset (.cons (.pystr "a") .nil)))]⟩ : Parameters).get_parameter "name"
      = .ok (.pystr "widget")
    ∧ (⟨[("count", (some ("value", "integer"), .pyint 3)),
         ("name", (some ("value", "string"), .pystr "widget")),
         ("tags", (some ("v-set", "string"),
            .pyset (.cons (.pystr "a") .nil)))]⟩ : Parameters).get_parameter "tags"
      = .ok (.pyset (.cons (.pystr "a") .nil)) := by
  have h := from_pairs_get_roundtrip
    [("count", .pyint 3), ("name", .pystr "widget"),
     ("tags", .pyset (.cons (.pystr "a") .nil))]
    ⟨[("count", (some ("value", "integer"), .pyint 3)),
      ("name", (some ("value", "string"), .pystr "widget")),
      ("tags", (some ("v-set", "string"), .pyset (.cons (.pystr "a") .nil)))]⟩
    (by simp)
    (by simp [Parameters.from_pairs_v1, from_pairs_loop, identify_object_typeform,
      PyVal.builtinName, PyVal.iterFirst, PyVal.isPySet, dictInsert, dictMem,
      Except.map])
  exact ⟨h ("count", .pyint 3) (by simp), h ("name", .pystr "widget") (by simp),
    h ("tags", .pyset (.cons (.pystr "a") .nil)) (by simp)⟩

/-- C7: two stores built from the same associations in different insertion
orders are equal under `__eq__`, and in general two stores are equal
exactly when their key-to-(tag, value) mappings agree on every key. -/
theorem store_equality_iff_mapping_equality (pairs1 pairs2 : List (String × PyVal))
    (p1 p2 : Parameters)
    (hperm : pairs1.Perm pairs2)
    (hnd : (pairs1.map Prod.fst).Nodup)
    (h1 : Parameters.from_pairs_v1 pairs1 = .ok p1)
    (h2 : Parameters.from_pairs_v1 pairs2 = .ok p2) :
    p1.beq p2 = true
    ∧ ∀ q r : Parameters,
        (q.beq r = true ↔ ∀ k, dictGet? q._storage k = dictGet? r._storage k) := by
  have hiff : ∀ q r : Parameters,
      (q.beq r = true ↔ ∀ k, dictGet? q._storage k = dictGet? r._storage k) := by
    intro q r
    unfold Parameters.beq
    rw [dictBeq_iff]
    constructor
    · intro h k; exact (h k).symm
    · intro h k; exact (h k).symm
  refine ⟨(hiff p1 p2).mpr ?_, hiff⟩
  intro k
  have hs1 := from_pairs_v1_storage pairs1 p1 h1
  have hs2 := from_pairs_v1_storage pairs2 p2 h2
  have hnd2 : (pairs2.map Prod.fst).Nodup := (hperm.map Prod.fst).nodup hnd
  by_cases hk : k ∈ pairs1.map Prod.fst
  · rcases List.mem_map.mp hk with ⟨⟨k0, v⟩, hmem, hke⟩
    subst hke
    obtain ⟨tf1, hid1, hg1⟩ :=
      from_pairs_loop_mem pairs1 [] p1._storage k0 v hs1 hnd hmem
    obtain ⟨tf2, hid2, hg2⟩ :=
      from_pairs_loop_mem pairs2 [] p2._storage k0 v hs2 hnd2 (hperm.mem_iff.mp hmem)
    rw [hg1, hg2, hid1] at *
    cases hid2
    rfl
  · have hk2 : k ∉ pairs2.map Prod.fst :=
      fun h => hk ((hperm.map Prod.fst).mem_iff.mpr h)
    rw [from_pairs_loop_frame pairs1 [] p1._storage k hs1 hk,
        from_pairs_loop_frame pairs2 [] p2._storage k hs2 hk2]

theorem store_equality_iff_mapping_equality_witness :
    (⟨[("a", (some ("value", "integer"), .pyint 1)),
       ("b", (some ("value", "string"), .pystr "x"))]⟩ : Parameters).beq
      ⟨[("b", (some ("value", "string"), .pystr "x")),
        ("a", (some ("value", "integer"), .pyint 1))]⟩ = true
    ∧ ∀ q r : Parameters,
        (q.beq r = true ↔ ∀ k, dictGet? q._storage k = dictGet? r._storage k) :=
  store_equality_iff_mapping_equality
    [("a", .pyint 1), ("b", .pystr "x")] [("b", .pystr "x"), ("a", .pyint 1)]
    ⟨[("a", (some ("value", "integer"), .pyint 1)),
      ("b", (some ("value", "string"), .pystr "x"))]⟩
    ⟨[("b", (some ("value", "string"), .pystr "x")),
      ("a", (some ("value", "integer"), .pyint 1))]⟩
    (List.Perm.swap (("b", PyVal.pystr "x") : String × PyVal)
      (("a", PyVal.pyint 1) : String × PyVal) [])
    (by simp)
    (by simp [Parameters.from_pairs_v1, from_pairs_loop, identify_object_typeform,
      PyVal.builtinName, dictInsert, dictMem, Except.map])
    (by simp [Parameters.from_pairs_v1, from_pairs_loop, identify_object_typeform,
      PyVal.builtinName, dictInsert, dictMem, Except.map])

/-- C4: a non-empty homogeneous collection of supported scalars of type
`T` classifies with form v-set when it is a set and with form v-sequence
for any other iterable (lists, tuples), and a collection whose first
element is itself a collection is rejected by the assertion that the
form of the element must be a scalar `value`. -/
theorem classify_homogeneous_collections (elems : PyValList) (T : String)
    (hne : elems ≠ .nil)
    (hall : ∀ v ∈ elems.toList, v.builtinName = some T) :
    identify_object_typeform (.pyset elems) = .ok (some ("v-set", T))
    ∧ identify_object_typeform (.pylist elems) = .ok (some ("v-sequence", T))
    ∧ identify_object_typeform (.pytuple elems) = .ok (some ("v-sequence", T))
    ∧ (∀ (y : PyVal) (ys rest : PyValList), y.builtinName = some T →
        identify_object_typeform (.pylist (.cons (.pylist (.cons y ys)) rest))
          = .error "AssertionError") := by
  refine ⟨?_, ?_, ?_, ?_⟩
  · cases elems with
    | nil => exact absurd rfl hne
    | cons x t =>
      have hx := identify_of_builtinName (hall x (by simp [PyValList.toList]))
      simp [identify_object_typeform, PyVal.builtinName, PyVal.iterFirst,
        PyVal.isPySet, hx]
  · cases elems with
    | nil => exact absurd rfl hne
    | cons x t =>
      have hx := identify_of_builtinName (hall x (by simp [PyValList.toList]))
      simp [identify_object_typeform, PyVal.builtinName, PyVal.iterFirst,
        PyVal.isPySet, hx]
  · cases elems with
    | nil => exact absurd rfl hne
    | cons x t =>
      have hx := identify_of_builtinName (hall x (by simp [PyValList.toList]))
      simp [identify_object_typeform, PyVal.builtinName, PyVal.iterFirst,
        PyVal.isPySet, hx]
  · intro y ys rest hy
    have hy' := identify_of_builtinName hy
    have hinner : identify_object_typeform (.pylist (.cons y ys))
        = .ok (some ("v-sequence", T)) := by
      simp [identify_object_typeform, PyVal.builtinName, PyVal.iterFirst,
        PyVal.isPySet, hy']
    simp [identify_object_typeform, PyVal.builtinName, PyVal.iterFirst,
      PyVal.isPySet, hinner]

theorem classify_homogeneous_collections_witness :
    identify_object_typeform (.pyset (.cons (.pystr "a") (.cons (.pystr "b") .nil)))
        = .ok (some ("v-set", "string"))
    ∧ identify_object_typeform (.pylist (.cons (.pystr "a") (.cons (.pystr "b") .nil)))
        = .ok (some ("v-sequence", "string"))
    ∧ identify_object_typeform (.pytuple (.cons (.pystr "a") (.cons (.pystr "b") .nil)))
        = .ok (some ("v-sequence", "string"))
    ∧ (∀ (y : PyVal) (ys rest : PyValList), y.builtinName = some "string" →
        identify_object_typeform (.pylist (.cons (.pylist (.cons y ys)) rest))
          = .error "AssertionError") :=
  classify_homogeneous_collections
    (.cons (.pystr "a") (.cons (.pystr "b") .nil)) "string"
    (by simp)
    (by intro v hv
        simp [PyValList.toList] at hv
        rcases hv with h | h <;> simp [h, PyVal.builtinName])
